import Mathlib

/-!
Shallow embedding of the ParallelPlay synchronization controller
(the Express `/control` endpoint of `control.js`, shipped inside
`00_StartApp.command`).  Two VLC instances (master and slave) are driven
through their HTTP interfaces; each case of the endpoint switch is modelled
as a pure function from the statuses it queries and the request parameters
to the list of VLC commands it issues and the response it produces.

Modelling conventions:
- JavaScript numbers occurring in the controller (elapsed times, seek and
  rate values) are modelled as rationals; the JSON request body carries only
  finite numbers, strings, or nothing, so request values are `ReqVal`.
- A VLC HTTP request is a `Cmd`; the fixed settle pauses
  (`setTimeout`) are recorded as `Cmd.delay` so that command order is visible.
- Reaching a statement that throws (dereferencing a null status) is modelled
  as `Outcome.crash`: the commands issued before the throw are kept, and no
  response is produced.
- The string contents written to `paths.txt` are modelled as `List Char`.
-/

namespace ParallelPlay

/-! ### Request values and JavaScript coercions -/

/-- A value as it may appear for a field of the JSON request body:
a finite JSON number, a string, or absent (`undefined`). -/
inductive ReqVal
  | num (q : ℚ)
  | str (s : String)
  | undef
deriving DecidableEq

/-- JavaScript truthiness of a request value: `0`, the empty string and
`undefined` are falsy, everything else is truthy. -/
def truthy : ReqVal → Bool
  | .num q => decide (q ≠ 0)
  | .str s => decide (s ≠ "")
  | .undef => false

/-- Whitespace recognized when trimming a string before numeric coercion. -/
def isWs (c : Char) : Bool := c == ' ' || c == '\t' || c == '\n' || c == '\r'

/-- Trim leading and trailing whitespace. -/
def trimWs (s : List Char) : List Char :=
  ((s.dropWhile isWs).reverse.dropWhile isWs).reverse

/-- Value of a list of decimal digits. -/
def digitsToNat (ds : List Char) : ℕ :=
  ds.foldl (fun n c => 10 * n + (c.toNat - '0'.toNat)) 0

/-- Parse an unsigned decimal literal (digits, optionally a dot and fraction
digits) as the `Number` coercion accepts after sign handling and trimming;
any other shape yields `none` (NaN).  Exponents and hexadecimal literals are
outside the model. -/
def parseDec (s : List Char) : Option ℚ :=
  let ds := s.takeWhile Char.isDigit
  let rest := s.dropWhile Char.isDigit
  match rest with
  | [] => if ds.isEmpty then none else some (digitsToNat ds : ℚ)
  | '.' :: fs =>
      if fs.all Char.isDigit && !(ds.isEmpty && fs.isEmpty) then
        some ((digitsToNat ds : ℚ) + (digitsToNat fs : ℚ) / (10 : ℚ) ^ fs.length)
      else none
  | _ => none

/-- JavaScript `Number(string)`: trim whitespace, the empty string denotes 0,
otherwise an optionally signed decimal literal; `none` models NaN. -/
def strToNum (s : String) : Option ℚ :=
  match trimWs s.data with
  | [] => some 0
  | '-' :: rest => (parseDec rest).map (fun q => -q)
  | '+' :: rest => parseDec rest
  | t => parseDec t

/-- Numeric coercion of a request value, as used by `isNaN` and by the
relational operators; `none` models NaN. -/
def toNum : ReqVal → Option ℚ
  | .num q => some q
  | .str s => strToNum s
  | .undef => none

/-! ### Participants, commands, responses -/

/-- The two VLC instances driven by the controller. -/
inductive Target
  | master
  | slave
deriving DecidableEq

/-- One VLC HTTP command, or a fixed settle delay (milliseconds).  For values
interpolated into the request URL the numeric denotation is recorded. -/
inductive Cmd
  | in_enqueue (t : Target) (input : String)
  | pl_next (t : Target)
  | rate (t : Target) (val : ℚ)
  | seekTo (t : Target) (val : ℚ)
  | pl_play (t : Target)
  | pl_pause (t : Target)
  | pl_stop (t : Target)
  | fullscreenCmd (t : Target)
  | in_play (t : Target) (input : String)
  | delay (ms : ℕ)
deriving DecidableEq

/-- The body of the single JSON response of the endpoint: exactly one of a
success message or an error message. -/
inductive Resp
  | message (s : String)
  | error (s : String)
deriving DecidableEq

/-- How a handler invocation ends: with a response, or by throwing out of the
async handler (no response is ever sent). -/
inductive Outcome
  | resp (r : Resp)
  | crash
deriving DecidableEq

/-! ### Player status -/

/-- A parsed VLC status document: the fields the controller reads.  `time` is
`none` when the document lacks the field; `fullscreen` likewise. -/
structure Status where
  state : String
  time : Option ℚ
  fullscreen : Option Bool
deriving DecidableEq

/-- The `status.time || 0` pattern: a missing elapsed time is read as 0. -/
def timeOr0 (st : Status) : ℚ := st.time.getD 0

/-- The `status?.state === "paused"` test on a possibly null status. -/
def pausedState : Option Status → Bool
  | some st => st.state == "paused"
  | none => false

/-! ### Path store (`paths.txt`) -/

/-- Key prefixing the master path line of `paths.txt`. -/
def MASTER_KEY : List Char := "MASTER_VIDEO_PATH=".data

/-- Key prefixing the slave path line of `paths.txt`. -/
def SLAVE_KEY : List Char := "SLAVE_VIDEO_PATH=".data

/-- savePaths: the exact file content written to `paths.txt`
(`MASTER_VIDEO_PATH=m`, a newline, `SLAVE_VIDEO_PATH=s`, no trailing
newline). -/
def savePaths (masterFile slaveFile : List Char) : List Char :=
  MASTER_KEY ++ masterFile ++ '\n' :: (SLAVE_KEY ++ slaveFile)

/-- Prepend a character to the first line of a line list (empty list treated
as a single fresh line). -/
def consHead (c : Char) : List (List Char) → List (List Char)
  | [] => [[c]]
  | l :: ls => (c :: l) :: ls

/-- One right-fold step of splitting on the pattern carriage-return-optional
newline.  The accumulator carries the lines of the suffix already processed
and the character immediately to the right of the current position. -/
def splitStep (c : Char) (acc : List (List Char) × Option Char) :
    List (List Char) × Option Char :=
  (if c = '\n' then [] :: acc.1
   else if c = '\r' ∧ acc.2 = some '\n' then acc.1
   else consHead c acc.1,
   some c)

/-- Split file content into lines exactly as the split on the regular
expression carriage-return-optional newline does. -/
def splitLines (content : List Char) : List (List Char) :=
  (content.foldr splitStep ([[]], none)).1

/-- JavaScript `String.prototype.startsWith` on character lists. -/
def startsWith (p l : List Char) : Bool :=
  match p, l with
  | [], _ => true
  | _ :: _, [] => false
  | a :: p', b :: l' => a == b && startsWith p' l'

/-- Remove the first occurrence of `pat` (the `replace(pat, "")` call of
`readPaths`); a list without an occurrence is returned unchanged. -/
def removeFirst (pat : List Char) : List Char → List Char
  | [] => []
  | c :: rest =>
      if startsWith pat (c :: rest) then (c :: rest).drop pat.length
      else c :: removeFirst pat rest

/-- The `forEach` body of `readPaths` over one line, updating the pair
(masterFile, slaveFile). -/
def processLine (acc : List Char × List Char) (line : List Char) :
    List Char × List Char :=
  let acc1 := if startsWith MASTER_KEY line then (removeFirst MASTER_KEY line, acc.2) else acc
  if startsWith SLAVE_KEY line then (acc1.1, removeFirst SLAVE_KEY line) else acc1

/-- readPaths: parse the stored record; an absent file yields two empty
fields. -/
def readPaths (file : Option (List Char)) : List Char × List Char :=
  match file with
  | some content => (splitLines content).foldl processLine ([], [])
  | none => ([], [])

/-! ### The endpoint cases -/

/-- The seek case: `if (seekValue && !isNaN(seekValue))` seek both players to
the value, else answer the validation error without issuing commands. -/
def seekCase (seekValue : ReqVal) : List Cmd × Outcome :=
  match toNum seekValue, truthy seekValue with
  | some q, true =>
      ([Cmd.seekTo .master q, Cmd.seekTo .slave q],
       .resp (.message "Seek command sent."))
  | _, _ => ([], .resp (.error "Invalid or missing seek value."))

/-- The setSpeed case: `if (speed && !isNaN(speed) && speed > 0)` set the rate
on both players and wait 200 ms, else answer the validation error. -/
def setSpeedCase (speed : ReqVal) : List Cmd × Outcome :=
  match toNum speed, truthy speed with
  | some q, true =>
      if 0 < q then
        ([Cmd.rate .master q, Cmd.rate .slave q, Cmd.delay 200],
         .resp (.message ("Speed set to " ++ toString q ++ "x on both players.")))
      else ([], .resp (.error "Invalid speed value. Must be a positive number."))
  | _, _ => ([], .resp (.error "Invalid speed value. Must be a positive number."))

/-- The pause case: query both statuses; if either is null answer the status
error; otherwise seek both players to the larger elapsed time and pause
exactly the players currently playing. -/
def pauseCase (statusMaster statusSlave : Option Status) : List Cmd × Outcome :=
  match statusMaster, statusSlave with
  | some m, some s =>
      let maxTime := max (timeOr0 m) (timeOr0 s)
      (Cmd.seekTo .master maxTime :: Cmd.seekTo .slave maxTime ::
         ((if m.state = "playing" then [Cmd.pl_pause .master] else []) ++
          (if s.state = "playing" then [Cmd.pl_pause .slave] else [])),
       .resp (.message ("Both players synced to " ++ toString maxTime ++
         " sec and paused (no toggling).")))
  | _, _ => ([], .resp (.error "Could not retrieve VLC status."))

/-- The skip_forward case: each player is seeked to its own elapsed time plus
ten seconds. -/
def skipForwardCase (statusMaster statusSlave : Option Status) : List Cmd × Outcome :=
  match statusMaster, statusSlave with
  | some m, some s =>
      ([Cmd.seekTo .master (timeOr0 m + 10), Cmd.seekTo .slave (timeOr0 s + 10)],
       .resp (.message "Skipped forward 10 seconds."))
  | _, _ => ([], .resp (.error "Could not retrieve VLC status."))

/-- The skip_backward case: each player is seeked to its own elapsed time
minus ten seconds, clamped at zero. -/
def skipBackwardCase (statusMaster statusSlave : Option Status) : List Cmd × Outcome :=
  match statusMaster, statusSlave with
  | some m, some s =>
      ([Cmd.seekTo .master (max 0 (timeOr0 m - 10)),
        Cmd.seekTo .slave (max 0 (timeOr0 s - 10))],
       .resp (.message "Skipped backward 10 seconds."))
  | _, _ => ([], .resp (.error "Could not retrieve VLC status."))

/-- The play case.  `statusMaster`/`statusSlave` are the first status query
results, `updMaster`/`updSlave` the re-query after the start commands, and
`masterFile`/`slaveFile` the selection read from the path store.  Reading
`.fullscreen` off a null re-query throws in the source and is modelled as
`Outcome.crash` (the commands already issued are kept). -/
def playCase (masterFile slaveFile : String)
    (statusMaster statusSlave updMaster updSlave : Option Status) :
    List Cmd × Outcome :=
  if masterFile = "" ∨ slaveFile = "" then
    ([], .resp (.error "File paths not found. Save them first."))
  else
    let resumingFromPause := pausedState statusMaster || pausedState statusSlave
    let startCmds :=
      (if resumingFromPause then [] else
        [Cmd.in_enqueue .master masterFile, Cmd.in_enqueue .slave slaveFile,
         Cmd.pl_next .master, Cmd.pl_next .slave,
         Cmd.rate .master 1, Cmd.rate .slave 1,
         Cmd.seekTo .master 0, Cmd.seekTo .slave 0,
         Cmd.delay 1000]) ++
      [Cmd.pl_play .master, Cmd.pl_play .slave, Cmd.delay 300]
    match updMaster, updSlave with
    | some um, some us =>
        (startCmds ++
           (if um.fullscreen == some true then [] else [Cmd.fullscreenCmd .master]) ++
           (if us.fullscreen == some true then [] else [Cmd.fullscreenCmd .slave]),
         .resp (.message
           ((if resumingFromPause then "Playback resumed from paused position. "
             else "Playback started in sync after 1-second buffer. Rate set to 1.0x. ") ++
            "Fullscreen: Master - " ++
            (if um.fullscreen == some true then "already" else "now") ++
            " ON, Slave - " ++
            (if us.fullscreen == some true then "already" else "now") ++ " ON.")))
    | _, _ => (startCmds, .crash)

/-- The fullscreen fix-up commands issued after the re-query of the play
case (toggle precisely the players whose flag is not strictly `true`);
empty when either re-query is null, since the source throws before any
send. -/
def fsFixCmds (updMaster updSlave : Option Status) : List Cmd :=
  match updMaster, updSlave with
  | some um, some us =>
      (if um.fullscreen == some true then [] else [Cmd.fullscreenCmd .master]) ++
      (if us.fullscreen == some true then [] else [Cmd.fullscreenCmd .slave])
  | _, _ => []

/-- The fullscreen case: wait 300 ms, re-query both statuses, then read the
fullscreen flag of each.  The source dereferences the statuses without a
null check, so a null query result throws: `Outcome.crash`, with only the
delay having happened. -/
def fullscreenCase (statusMaster statusSlave : Option Status) : List Cmd × Outcome :=
  match statusMaster, statusSlave with
  | some m, some s =>
      (Cmd.delay 300 ::
         ((if m.fullscreen == some true then [] else [Cmd.fullscreenCmd .master]) ++
          (if s.fullscreen == some true then [] else [Cmd.fullscreenCmd .slave])),
       .resp (.message ("Both players playing. Fullscreen: Master - " ++
         (if m.fullscreen == some true then "already" else "now") ++
         " ON, Slave - " ++
         (if s.fullscreen == some true then "already" else "now") ++ " ON.")))
  | _, _ => ([Cmd.delay 300], .crash)

/-- Drift tolerance of the sync case (seconds). -/
def threshold : ℚ := 1/2

/-- The tail of the sync case once both elapsed times have been obtained
(after the retry and recovery steps), including the fall-through: the sync
case body has no break, so when the drift is within the threshold control
continues into the setSpeed case with the same request body.  The decimal
formatting of the reported position (`toFixed`) is abstracted as `toString`. -/
def syncCorrect (masterTime slaveTime : ℚ) (speed : ReqVal) : List Cmd × Outcome :=
  if |masterTime - slaveTime| > threshold then
    ((if masterTime < slaveTime then [Cmd.seekTo .master (slaveTime + 1)]
      else if slaveTime < masterTime then [Cmd.seekTo .slave (masterTime + 1)]
      else []) ++
     [Cmd.pl_play .master, Cmd.pl_play .slave],
     .resp (.message ("Sync complete. Both players are now playing at ~" ++
       toString (max masterTime slaveTime + 1) ++ " sec.")))
  else setSpeedCase speed

/-- The savePaths command at the endpoint, including the legacy fallback that
runs before the switch: an empty or absent slaveFile is replaced by
masterFile.  The result is the path store content after the request together
with the response.  A missing or empty request field is modelled as the
empty list; the write is assumed to succeed (the catch branch is not
modelled). -/
def savePathsCase (store : Option (List Char)) (masterFile slaveFile : List Char) :
    Option (List Char) × Outcome :=
  let slaveFile := if slaveFile = [] then masterFile else slaveFile
  if masterFile ≠ [] ∧ slaveFile ≠ [] then
    (some (savePaths masterFile slaveFile), .resp (.message "Paths saved successfully."))
  else
    (store, .resp (.error "Missing file paths."))

/-! ### Helper lemmas -/

theorem strToNum_empty : strToNum "" = some 0 := rfl

theorem truthy_of_toNum_pos (v : ReqVal) (q : ℚ) (h : toNum v = some q) (hq : q ≠ 0) :
    truthy v = true := by
  cases v with
  | num r =>
      simp only [toNum, Option.some.injEq] at h
      subst h
      simpa [truthy] using hq
  | str s =>
      by_cases hs : s = ""
      · subst hs
        simp only [toNum, strToNum_empty, Option.some.injEq] at h
        exact absurd h.symm hq
      · simpa [truthy] using hs
  | undef => simp [toNum] at h

theorem setSpeedCase_valid (v : ReqVal) (q : ℚ) (h : toNum v = some q) (hq : 0 < q) :
    setSpeedCase v =
      ([Cmd.rate .master q, Cmd.rate .slave q, Cmd.delay 200],
       .resp (.message ("Speed set to " ++ toString q ++ "x on both players."))) := by
  have ht : truthy v = true := truthy_of_toNum_pos v q h (ne_of_gt hq)
  unfold setSpeedCase
  rw [h, ht]
  simp [hq]

theorem setSpeedCase_invalid (v : ReqVal) (h : ∀ q, toNum v = some q → ¬ 0 < q) :
    setSpeedCase v = ([], .resp (.error "Invalid speed value. Must be a positive number.")) := by
  unfold setSpeedCase
  cases hv : toNum v with
  | none => cases truthy v <;> simp
  | some q =>
      have hq := h q hv
      cases truthy v <;> simp [hq]

theorem setSpeedCase_no_seek (v : ReqVal) (t : Target) (x : ℚ) :
    Cmd.seekTo t x ∉ (setSpeedCase v).1 := by
  unfold setSpeedCase
  cases toNum v with
  | none => cases truthy v <;> simp
  | some q =>
      cases truthy v with
      | false => simp
      | true => by_cases hq : 0 < q <;> simp [hq]

/-! ### C1: sync drift correction -/

/-- C1: for a Sync invocation in which both elapsed times are obtained, with
drift at most the 0.5 s threshold no seek is issued to either participant
(also not by the fall-through into setSpeed), and with drift above the
threshold exactly one seek is issued, to the participant whose elapsed time
is smaller, targeting the other participant's elapsed time plus one, followed
by play to both participants. -/
theorem c1_sync_drift_correction (mt st : ℚ) (speed : ReqVal) :
    (|mt - st| ≤ 1/2 → ∀ t v, Cmd.seekTo t v ∉ (syncCorrect mt st speed).1) ∧
    (1/2 < |mt - st| →
      (syncCorrect mt st speed).1 =
        (if mt < st then [Cmd.seekTo .master (st + 1)] else [Cmd.seekTo .slave (mt + 1)]) ++
        [Cmd.pl_play .master, Cmd.pl_play .slave]) := by
  constructor
  · intro h t v
    have heq : syncCorrect mt st speed = setSpeedCase speed := by
      unfold syncCorrect threshold
      rw [if_neg (not_lt.mpr h)]
    rw [heq]
    exact setSpeedCase_no_seek speed t v
  · intro h
    have hne : mt ≠ st := by
      intro he
      rw [he, sub_self, abs_zero] at h
      exact absurd h (by norm_num)
    unfold syncCorrect threshold
    rw [if_pos h]
    rcases lt_or_gt_of_ne hne with hlt | hgt
    · simp [hlt]
    · simp [not_lt.mpr (le_of_lt hgt), hgt]

/-- Witness for C1 at the documented example: masterElapsed 50, slaveElapsed
44 gives drift 6 above the threshold, so the slave (behind) is seeked to 51
and both receive play. -/
theorem c1_sync_drift_correction_witness :
    (1/2 : ℚ) < |(50 : ℚ) - 44| ∧
    (syncCorrect 50 44 ReqVal.undef).1 =
      [Cmd.seekTo .slave 51, Cmd.pl_play .master, Cmd.pl_play .slave] := by
  refine ⟨by norm_num, ?_⟩
  have h := (c1_sync_drift_correction 50 44 ReqVal.undef).2 (by norm_num)
  rw [if_neg (by norm_num : ¬ (50 : ℚ) < 44),
      (by norm_num : (50 : ℚ) + 1 = 51)] at h
  simpa using h

/-! ### C4: SeekAbsolute validation (corrected) -/

/-- C4 counterexample: the value 0 is a finite number, yet the seek case
issues zero commands and answers the validation error, because the source
guards with truthiness (`seekValue && !isNaN(seekValue)`) and 0 is falsy.
The claim as stated requires a seek to both participants here. -/
theorem c4_counterexample :
    seekCase (ReqVal.num 0) = ([], .resp (.error "Invalid or missing seek value.")) := by
  rfl

/-- C4 amended: a seek is issued precisely when the supplied value is truthy
and coerces to a number; then both participants are seeked to that numeric
value and a success message is returned, and otherwise (in particular the
finite number 0, the empty string, absent and non-numeric values) zero
commands are issued and the invalid-seek-value error is returned. -/
theorem c4_amended_seek_validation (v : ReqVal) :
    (∀ q, toNum v = some q → truthy v = true →
      seekCase v = ([Cmd.seekTo .master q, Cmd.seekTo .slave q],
        .resp (.message "Seek command sent."))) ∧
    (truthy v = false ∨ toNum v = none →
      seekCase v = ([], .resp (.error "Invalid or missing seek value."))) := by
  constructor
  · intro q hq ht
    unfold seekCase
    rw [hq, ht]
  · intro h
    unfold seekCase
    rcases h with h | h
    · rw [h]
      cases toNum v <;> rfl
    · rw [h]

/-- Witness for the amended C4 at the number 7: both participants are seeked
to 7 with the success message. -/
theorem c4_amended_seek_validation_witness :
    seekCase (ReqVal.num 7) =
      ([Cmd.seekTo .master 7, Cmd.seekTo .slave 7], .resp (.message "Seek command sent.")) :=
  (c4_amended_seek_validation (ReqVal.num 7)).1 7 rfl (by decide)

/-! ### C5: SetSpeed validation -/

/-- C5: for a SetSpeed request whose value denotes a finite number strictly
greater than 0, a rate command carrying exactly that value is issued to the
master and the slave and to no other target, followed by the settle delay,
with a success message; any other value yields zero commands and the
invalid-speed-value error. -/
theorem c5_set_speed_validation (v : ReqVal) :
    (∀ q, toNum v = some q → 0 < q →
      setSpeedCase v =
        ([Cmd.rate .master q, Cmd.rate .slave q, Cmd.delay 200],
         .resp (.message ("Speed set to " ++ toString q ++ "x on both players.")))) ∧
    (¬ (∃ q, toNum v = some q ∧ 0 < q) →
      setSpeedCase v = ([], .resp (.error "Invalid speed value. Must be a positive number."))) := by
  constructor
  · intro q hq h
    exact setSpeedCase_valid v q hq h
  · intro h
    refine setSpeedCase_invalid v ?_
    intro q hq hpos
    exact h ⟨q, hq, hpos⟩

/-- Witness for C5 at speed 2: rate 2 is set on master and slave only. -/
theorem c5_set_speed_validation_witness :
    setSpeedCase (ReqVal.num 2) =
      ([Cmd.rate .master 2, Cmd.rate .slave 2, Cmd.delay 200],
       .resp (.message ("Speed set to " ++ toString (2 : ℚ) ++ "x on both players."))) :=
  (c5_set_speed_validation (ReqVal.num 2)).1 2 rfl (by norm_num)

/-! ### C9: the missing break of the sync case -/

/-- C9: when both elapsed times are obtained and the drift is within the
0.5 s threshold, the sync case falls through into the setSpeed case (its body
has no break and no return on this path), so the invocation answers the
invalid-speed-value error whenever the request carries no value denoting a
positive number, and with such a value it additionally issues rate commands
to both participants. -/
theorem c9_sync_fallthrough (mt st : ℚ) (speed : ReqVal) (h : |mt - st| ≤ 1/2) :
    syncCorrect mt st speed = setSpeedCase speed ∧
    (¬ (∃ q, toNum speed = some q ∧ 0 < q) →
      syncCorrect mt st speed =
        ([], .resp (.error "Invalid speed value. Must be a positive number."))) ∧
    (∀ q, toNum speed = some q → 0 < q →
      (syncCorrect mt st speed).1 = [Cmd.rate .master q, Cmd.rate .slave q, Cmd.delay 200]) := by
  have heq : syncCorrect mt st speed = setSpeedCase speed := by
    unfold syncCorrect threshold
    rw [if_neg (not_lt.mpr h)]
  refine ⟨heq, ?_, ?_⟩
  · intro hno
    rw [heq]
    refine setSpeedCase_invalid speed ?_
    intro q hq hpos
    exact hno ⟨q, hq, hpos⟩
  · intro q hq hpos
    rw [heq, setSpeedCase_valid speed q hq hpos]

/-- Witness for C9 at the documented example: masterElapsed 100 and
slaveElapsed 100.2 give drift 0.2 within the threshold; with no speed field
the invocation answers the invalid-speed-value error and issues no
commands. -/
theorem c9_sync_fallthrough_witness :
    |(100 : ℚ) - 501/5| ≤ 1/2 ∧
    syncCorrect 100 (501/5) ReqVal.undef =
      ([], .resp (.error "Invalid speed value. Must be a positive number.")) := by
  have habs : |(100 : ℚ) - 501/5| ≤ 1/2 := by
    rw [abs_le]
    constructor <;> norm_num
  refine ⟨habs, ?_⟩
  exact (c9_sync_fallthrough 100 (501/5) ReqVal.undef habs).2.1
    (by rintro ⟨q, hq, -⟩; simp [toNum] at hq)

/-! ### C2: pause seeks to the maximum elapsed time, then pauses the playing
participants -/

/-- C2: when both status queries succeed with defined elapsed times, the
pause case first seeks both participants to the larger elapsed time and only
then issues a pause, exactly to the participants whose state is playing; when
either query returns absent the case answers the status-unavailable error
without issuing any command. -/
theorem c2_pause_sync_then_pause :
    (∀ (m s : Status) (mt st : ℚ), m.time = some mt → s.time = some st →
      (pauseCase (some m) (some s)).1 =
        Cmd.seekTo .master (max mt st) :: Cmd.seekTo .slave (max mt st) ::
          ((if m.state = "playing" then [Cmd.pl_pause .master] else []) ++
           (if s.state = "playing" then [Cmd.pl_pause .slave] else []))) ∧
    (∀ x, pauseCase none x = ([], .resp (.error "Could not retrieve VLC status."))) ∧
    (∀ x, pauseCase x none = ([], .resp (.error "Could not retrieve VLC status."))) := by
  refine ⟨?_, ?_, ?_⟩
  · intro m s mt st hm hs
    simp [pauseCase, timeOr0, hm, hs]
  · intro x
    rfl
  · intro x
    cases x <;> rfl

/-- Witness for C2 at the documented example: master playing at 5.0, slave
already paused at 4.0: both are seeked to 5 and only the master receives a
pause command. -/
theorem c2_pause_sync_then_pause_witness :
    (pauseCase (some ⟨"playing", some 5, some true⟩) (some ⟨"paused", some 4, some true⟩)).1 =
      [Cmd.seekTo .master 5, Cmd.seekTo .slave 5, Cmd.pl_pause .master] := by
  have h := c2_pause_sync_then_pause.1 ⟨"playing", some 5, some true⟩
    ⟨"paused", some 4, some true⟩ 5 4 rfl rfl
  simpa using h

/-! ### C3: play cold start versus resume -/

/-- The command block of a cold start: enqueue the selection on both, advance
to the enqueued entry on both, reset the rate to 1.0 on both, seek both to 0,
and the one-second settle delay. -/
def coldStartCmds (masterFile slaveFile : String) : List Cmd :=
  [Cmd.in_enqueue .master masterFile, Cmd.in_enqueue .slave slaveFile,
   Cmd.pl_next .master, Cmd.pl_next .slave,
   Cmd.rate .master 1, Cmd.rate .slave 1,
   Cmd.seekTo .master 0, Cmd.seekTo .slave 0,
   Cmd.delay 1000]

/-- C3: with a non-empty selection, when neither queried state is paused the
play case issues, in order, the cold-start block (enqueue, advance, rate
reset, seek to 0, settle delay) and then play on both, followed only by the
fullscreen fix-up; when either state is paused the cold-start block is
skipped entirely and play is issued directly to both; the trailing fix-up
contains nothing but fullscreen toggles. -/
theorem c3_play_cold_start_vs_resume (mf sf : String) (hm : ¬ mf = "") (hs : ¬ sf = "")
    (sm ss um us : Option Status) :
    (pausedState sm = false → pausedState ss = false →
      (playCase mf sf sm ss um us).1 =
        coldStartCmds mf sf ++
          Cmd.pl_play .master :: Cmd.pl_play .slave :: Cmd.delay 300 :: fsFixCmds um us) ∧
    (pausedState sm = true →
      (playCase mf sf sm ss um us).1 =
        Cmd.pl_play .master :: Cmd.pl_play .slave :: Cmd.delay 300 :: fsFixCmds um us) ∧
    (pausedState ss = true →
      (playCase mf sf sm ss um us).1 =
        Cmd.pl_play .master :: Cmd.pl_play .slave :: Cmd.delay 300 :: fsFixCmds um us) ∧
    (∀ c ∈ fsFixCmds um us,
      c = Cmd.fullscreenCmd .master ∨ c = Cmd.fullscreenCmd .slave) := by
  have hguard : ¬ (mf = "" ∨ sf = "") := by
    rintro (h | h)
    · exact hm h
    · exact hs h
  refine ⟨?_, ?_, ?_, ?_⟩
  · intro h1 h2
    unfold playCase
    rw [if_neg hguard]
    rcases um with _ | a <;> rcases us with _ | b <;>
      simp [h1, h2, fsFixCmds, coldStartCmds]
  · intro h1
    unfold playCase
    rw [if_neg hguard]
    rcases um with _ | a <;> rcases us with _ | b <;>
      simp [h1, fsFixCmds]
  · intro h2
    unfold playCase
    rw [if_neg hguard]
    rcases um with _ | a <;> rcases us with _ | b <;>
      simp [h2, fsFixCmds]
  · intro c hc
    rcases um with _ | a <;> rcases us with _ | b
    · simp [fsFixCmds] at hc
    · simp [fsFixCmds] at hc
    · simp [fsFixCmds] at hc
    · unfold fsFixCmds at hc
      rcases List.mem_append.mp hc with h | h
      · left
        by_cases hp : (a.fullscreen == some true) = true
        · rw [if_pos hp] at h
          simp at h
        · rw [if_neg hp] at h
          simpa using h
      · right
        by_cases hp : (b.fullscreen == some true) = true
        · rw [if_pos hp] at h
          simp at h
        · rw [if_neg hp] at h
          simpa using h

/-- Witness for C3 at a cold start with both re-queries fullscreen: the exact
ordered command list. -/
theorem c3_play_cold_start_vs_resume_witness :
    (playCase "a.mp4" "b.mp4" (some ⟨"playing", some 0, some true⟩) none
        (some ⟨"playing", some 0, some true⟩) (some ⟨"playing", some 0, some true⟩)).1 =
      coldStartCmds "a.mp4" "b.mp4" ++
        [Cmd.pl_play .master, Cmd.pl_play .slave, Cmd.delay 300] := by
  have h := (c3_play_cold_start_vs_resume "a.mp4" "b.mp4" (by decide) (by decide)
    (some ⟨"playing", some 0, some true⟩) none
    (some ⟨"playing", some 0, some true⟩) (some ⟨"playing", some 0, some true⟩)).1
    (by decide) (by decide)
  simpa [fsFixCmds] using h

/-! ### C6: SaveSelection and the legacy fallback (corrected) -/

/-- C6 counterexample: with masterFile "a.mp4" and an empty slaveFile the
claim requires a missing-file-paths error and an unchanged store, but the
legacy fallback run before the switch replaces the empty slaveFile by
masterFile, so the store is overwritten with the pair (a.mp4, a.mp4) and a
success message is returned. -/
theorem c6_counterexample :
    savePathsCase none "a.mp4".data [] =
      (some (savePaths "a.mp4".data "a.mp4".data),
       .resp (.message "Paths saved successfully.")) := by
  rfl

/-- C6 amended: if the supplied masterPath is empty the intent fails with the
missing-file-paths error and the persisted record is unchanged (repeated
failed saves never mutate stored state); if both paths are non-empty the
record is overwritten with exactly the supplied pair; if masterPath is
non-empty and slavePath is empty, the legacy fallback substitutes masterPath
for slavePath and the record (masterPath, masterPath) is saved with a
success message. -/
theorem c6_amended_save_selection (store : Option (List Char)) (m s : List Char) :
    (m = [] → savePathsCase store m s = (store, .resp (.error "Missing file paths."))) ∧
    (m ≠ [] → s ≠ [] →
      savePathsCase store m s =
        (some (savePaths m s), .resp (.message "Paths saved successfully."))) ∧
    (m ≠ [] → s = [] →
      savePathsCase store m s =
        (some (savePaths m m), .resp (.message "Paths saved successfully."))) := by
  refine ⟨?_, ?_, ?_⟩
  · intro hm
    subst hm
    by_cases hs : s = [] <;> simp [savePathsCase, hs]
  · intro hm hs
    simp [savePathsCase, hm, hs]
  · intro hm hs
    subst hs
    simp [savePathsCase, hm]

/-- Witness for the amended C6: saving the non-empty pair (a.mp4, b.mp4)
overwrites the record with exactly that pair. -/
theorem c6_amended_save_selection_witness :
    savePathsCase none "a.mp4".data "b.mp4".data =
      (some (savePaths "a.mp4".data "b.mp4".data),
       .resp (.message "Paths saved successfully.")) :=
  (c6_amended_save_selection none "a.mp4".data "b.mp4".data).2.1
    (by decide) (by decide)

/-! ### C7: the fullscreen case can throw instead of responding -/

/-- C7 evidence: in the fullscreen case an unreachable master makes the
status query null, and the source reads `.fullscreen` off it without the null
check its sibling cases perform, throwing a TypeError out of the async
handler: no response of either shape is produced, contradicting the claimed
single-response invariant of the endpoint. -/
theorem c7_fullscreen_crash :
    fullscreenCase none (some ⟨"playing", some 5, some true⟩) =
      ([Cmd.delay 300], Outcome.crash) := by
  rfl

/-! ### C8: relative skip is computed per participant -/

/-- C8: when both status queries succeed with non-negative elapsed times,
skip_forward seeks each participant to its own elapsed time plus 10 (equal to
the clamped value max 0 (elapsed + 10)) and skip_backward to its own
max 0 (elapsed - 10), each computed from that participant's own elapsed time;
when either query returns absent both cases answer the status-unavailable
error and issue no seek. -/
theorem c8_skip_relative :
    (∀ (m s : Status) (mt st : ℚ), m.time = some mt → s.time = some st →
      0 ≤ mt → 0 ≤ st →
      (skipForwardCase (some m) (some s)).1 =
        [Cmd.seekTo .master (max 0 (mt + 10)), Cmd.seekTo .slave (max 0 (st + 10))] ∧
      (skipBackwardCase (some m) (some s)).1 =
        [Cmd.seekTo .master (max 0 (mt - 10)), Cmd.seekTo .slave (max 0 (st - 10))]) ∧
    (∀ x, skipForwardCase none x = ([], .resp (.error "Could not retrieve VLC status.")) ∧
      skipBackwardCase none x = ([], .resp (.error "Could not retrieve VLC status.")) ∧
      skipForwardCase x none = ([], .resp (.error "Could not retrieve VLC status.")) ∧
      skipBackwardCase x none = ([], .resp (.error "Could not retrieve VLC status."))) := by
  constructor
  · intro m s mt st hm hs hmt hst
    have h1 : max (0 : ℚ) (mt + 10) = mt + 10 := max_eq_right (by linarith)
    have h2 : max (0 : ℚ) (st + 10) = st + 10 := max_eq_right (by linarith)
    constructor
    · simp [skipForwardCase, timeOr0, hm, hs, h1, h2]
    · simp [skipBackwardCase, timeOr0, hm, hs]
  · intro x
    refine ⟨rfl, rfl, ?_, ?_⟩ <;> cases x <;> rfl

/-- Witness for C8 at elapsed times 12 and 3: forward seeks to 22 and 13,
backward seeks to 2 and 0 (clamped). -/
theorem c8_skip_relative_witness :
    (skipForwardCase (some ⟨"playing", some 12, some true⟩)
        (some ⟨"playing", some 3, some true⟩)).1 =
      [Cmd.seekTo .master 22, Cmd.seekTo .slave 13] ∧
    (skipBackwardCase (some ⟨"playing", some 12, some true⟩)
        (some ⟨"playing", some 3, some true⟩)).1 =
      [Cmd.seekTo .master 2, Cmd.seekTo .slave 0] := by
  have h := c8_skip_relative.1 ⟨"playing", some 12, some true⟩
    ⟨"playing", some 3, some true⟩ 12 3 rfl rfl (by norm_num) (by norm_num)
  constructor
  · rw [h.1]
    norm_num
  · rw [h.2]
    norm_num

/-! ### C10: path store roundtrip -/

theorem foldr_splitStep_no_break (line : List Char)
    (h : ∀ c ∈ line, c ≠ '\n' ∧ c ≠ '\r') (hd : List Char) (L : List (List Char))
    (nx : Option Char) :
    (line.foldr splitStep (hd :: L, nx)).1 = (line ++ hd) :: L := by
  induction line with
  | nil => rfl
  | cons c rest ih =>
      have hc := h c (List.mem_cons_self c rest)
      have hr : ∀ x ∈ rest, x ≠ '\n' ∧ x ≠ '\r' :=
        fun x hx => h x (List.mem_cons_of_mem c hx)
      rcases hsplit : rest.foldr splitStep (hd :: L, nx) with ⟨lines, w⟩
      have hlines : lines = (rest ++ hd) :: L := by
        have hrest := ih hr
        rw [hsplit] at hrest
        simpa using hrest
      subst hlines
      rw [List.foldr_cons, hsplit]
      unfold splitStep
      rw [if_neg hc.1, if_neg (fun hand => hc.2 hand.1)]
      simp [consHead]

theorem splitLines_savePaths (m s : List Char)
    (hm : ∀ c ∈ m, c ≠ '\n' ∧ c ≠ '\r') (hs : ∀ c ∈ s, c ≠ '\n' ∧ c ≠ '\r') :
    splitLines (savePaths m s) = [MASTER_KEY ++ m, SLAVE_KEY ++ s] := by
  have hA : ∀ c ∈ MASTER_KEY ++ m, c ≠ '\n' ∧ c ≠ '\r' := by
    intro c hc
    rcases List.mem_append.mp hc with h | h
    · exact (by decide : ∀ c ∈ MASTER_KEY, c ≠ '\n' ∧ c ≠ '\r') c h
    · exact hm c h
  have hB : ∀ c ∈ SLAVE_KEY ++ s, c ≠ '\n' ∧ c ≠ '\r' := by
    intro c hc
    rcases List.mem_append.mp hc with h | h
    · exact (by decide : ∀ c ∈ SLAVE_KEY, c ≠ '\n' ∧ c ≠ '\r') c h
    · exact hs c h
  unfold splitLines savePaths
  rw [show MASTER_KEY ++ m ++ '\n' :: (SLAVE_KEY ++ s) =
        (MASTER_KEY ++ m) ++ ('\n' :: (SLAVE_KEY ++ s)) from by
      simp [List.append_assoc]]
  rw [List.foldr_append, List.foldr_cons]
  rcases hP : (SLAVE_KEY ++ s).foldr splitStep ([[]], none) with ⟨lines, w⟩
  have h1 : lines = [SLAVE_KEY ++ s] := by
    have := foldr_splitStep_no_break (SLAVE_KEY ++ s) hB [] [] none
    rw [hP] at this
    simpa using this
  subst h1
  have h2 : splitStep '\n' ([SLAVE_KEY ++ s], w) = ([[], SLAVE_KEY ++ s], some '\n') := by
    simp [splitStep]
  rw [h2]
  have h3 := foldr_splitStep_no_break (MASTER_KEY ++ m) hA [] [SLAVE_KEY ++ s] (some '\n')
  simpa using h3

theorem startsWith_append (p t : List Char) : startsWith p (p ++ t) = true := by
  induction p with
  | nil => rfl
  | cons c p' ih => simp [startsWith, ih]

theorem removeFirst_of_leading (p t : List Char) : removeFirst p (p ++ t) = t := by
  cases p with
  | nil => cases t <;> simp [removeFirst, startsWith]
  | cons c p' =>
      rw [List.cons_append, removeFirst]
      rw [if_pos (by rw [← List.cons_append]; exact startsWith_append (c :: p') t)]
      rw [← List.cons_append]
      exact List.drop_left (c :: p') t

/-- C10: for non-empty paths containing no line-break characters, reading the
path store immediately after saving the pair returns exactly that pair; and
reading with the store file absent returns two empty fields. -/
theorem c10_path_store_roundtrip :
    (∀ m s : List Char, m ≠ [] → s ≠ [] →
      (∀ c ∈ m, c ≠ '\n' ∧ c ≠ '\r') → (∀ c ∈ s, c ≠ '\n' ∧ c ≠ '\r') →
      readPaths (some (savePaths m s)) = (m, s)) ∧
    readPaths none = ([], []) := by
  constructor
  · intro m s _ _ hmb hsb
    show (splitLines (savePaths m s)).foldl processLine ([], []) = (m, s)
    rw [splitLines_savePaths m s hmb hsb]
    simp only [List.foldl_cons, List.foldl_nil]
    unfold processLine
    rw [startsWith_append MASTER_KEY m]
    rw [show startsWith SLAVE_KEY (MASTER_KEY ++ m) = false from rfl]
    rw [show startsWith MASTER_KEY (SLAVE_KEY ++ s) = false from rfl]
    rw [startsWith_append SLAVE_KEY s]
    simp [removeFirst_of_leading]
  · rfl

/-- Witness for C10 at the pair (a.mp4, b.mp4): the stored record reads back
as exactly that pair. -/
theorem c10_path_store_roundtrip_witness :
    readPaths (some (savePaths "a.mp4".data "b.mp4".data)) = ("a.mp4".data, "b.mp4".data) :=
  c10_path_store_roundtrip.1 "a.mp4".data "b.mp4".data
    (by decide) (by decide) (by decide) (by decide)

end ParallelPlay
